import Mathlib

/-!
# Verification of the umbral matching & preference-learning engine

Shallow embedding of the Python sources of the `umbral` repository:

* `src/umbral/analysis/embeddings.py`   — `EmbeddingGenerator.cosine_similarity`
* `src/umbral/matching/engine.py`       — `MatchingEngine` (`find_matches_for_user`,
  `_calculate_similarity`, `_calculate_weighted_score`, `process_new_listings`)
* `src/umbral/bot/handlers.py`          — `FeedbackHandler._adjust_preference_vector`
* `src/umbral/database/repositories.py` — `AnalyzedListingRepository.search_by_filters`,
  `NotificationRepository.was_sent` / `create`
* `src/umbral/analysis/listing_analyzer.py` — room-count normalization
* `src/umbral/config.py`                — `Settings` defaults

Python floats are idealized as real numbers.  Values that reach the engine
from the database (JSON columns) are modelled by the small dynamic type
`PyVal`, with Python truthiness made explicit.
-/

namespace Umbral

/-! ## Vector math (embeddings.py) -/

/-- Sum of squares of a list of reals: `sum(a * a for a in vec)` in
`EmbeddingGenerator.cosine_similarity`. -/
def sumSq (v : List ℝ) : ℝ := (v.map fun a => a * a).sum

/-- `EmbeddingGenerator.cosine_similarity` (embeddings.py lines 390-411):
dot product of the `zip`-truncated vectors divided by the product of the
full-vector Euclidean norms; `0.0` when either norm is zero.  There is no
length check: `zip` silently truncates the dot product to the common
prefix, while each norm ranges over its entire vector. -/
noncomputable def cosine_similarity (vec1 vec2 : List ℝ) : ℝ :=
  let dot_product := (List.zipWith (fun a b => a * b) vec1 vec2).sum
  let norm1 := Real.sqrt (sumSq vec1)
  let norm2 := Real.sqrt (sumSq vec2)
  if norm1 = 0 ∨ norm2 = 0 then 0 else dot_product / (norm1 * norm2)

/-- The rescale-and-clamp step of `MatchingEngine._calculate_similarity`
(engine.py line 208): `max(0.0, min(1.0, (similarity + 1) / 2))`. -/
noncomputable def rescaleClamp (x : ℝ) : ℝ := max 0 (min 1 ((x + 1) / 2))

/-! ## Dynamic values from the database (JSON columns)

`_calculate_similarity` receives `preference_vector` and the listing's
`embedding_vector` / `vibe_embedding` as raw JSON-column values: they may be
`None`/missing, a list of numbers, a string (to be parsed with
`json.loads`), or some other value.  A string is represented by whether it
is non-empty (its Python truthiness) together with the outcome of
`json.loads` on it (`none` = `JSONDecodeError`). -/

inductive PyVal where
  | pynone : PyVal
  | pylist (xs : List ℝ) : PyVal
  | pystr (nonempty : Bool) (parsed : Option PyVal) : PyVal
  | pyother (truthy : Bool) : PyVal

/-- Python truthiness of a `PyVal` (`if not x` tests). -/
def pyTruthy : PyVal → Bool
  | PyVal.pynone => false
  | PyVal.pylist xs => !xs.isEmpty
  | PyVal.pystr ne _ => ne
  | PyVal.pyother t => t

/-- `isinstance(x, list)`. -/
def pyIsList : PyVal → Bool
  | PyVal.pylist _ => true
  | _ => false

/-- The listing vector chosen by
`listing.get("embedding_vector") or listing.get("vibe_embedding")`
(engine.py line 186). -/
def chosenListingVector (embedding vibe : PyVal) : PyVal :=
  if pyTruthy embedding then embedding else vibe

/-- The chosen listing vector after the string-parsing step of
`_calculate_similarity` (engine.py lines 191-196): a string is replaced by
its `json.loads` outcome (`none` = `JSONDecodeError`, which the code maps
to the neutral score); any other value passes through unchanged. -/
def parsedListingVector (embedding vibe : PyVal) : Option PyVal :=
  match chosenListingVector embedding vibe with
  | PyVal.pystr _ parsed => parsed
  | v => some v

/-- `MatchingEngine._calculate_similarity` (engine.py lines 168-211).
Returns `0.5` when the preference vector is falsy, when both listing
vector fields are falsy, when the chosen listing vector is a string that
fails to parse, or when either vector is not a list; otherwise the
clamped rescaled cosine similarity. -/
noncomputable def calculate_similarity
    (preference_vector embedding vibe : PyVal) : ℝ :=
  if ¬ pyTruthy preference_vector then 0.5
  else if ¬ pyTruthy (chosenListingVector embedding vibe) then 0.5
  else
    match parsedListingVector embedding vibe with
    | none => 0.5
    | some lvParsed =>
      match preference_vector, lvParsed with
      | PyVal.pylist pv, PyVal.pylist xs => rescaleClamp (cosine_similarity pv xs)
      | _, _ => 0.5

/-! ## Preference vector learner (bot/handlers.py) -/

/-- `FeedbackHandler._adjust_preference_vector` (handlers.py lines 787-814).
`current` is `current_vector: list[float] | None`; Python's `if not
current_vector` treats both `None` and `[]` as absent.  `lr` is
`settings.feedback_learning_rate`.  Returns `none` where the Python
returns `None` (no update). -/
noncomputable def adjust_preference_vector
    (lr : ℝ) (current : Option (List ℝ)) (listing : List ℝ) (isLike : Bool) :
    Option (List ℝ) :=
  if listing.isEmpty then none
  else
    match current with
    | none => if isLike then some listing else none
    | some [] => if isLike then some listing else none
    | some cur =>
      if cur.length ≠ listing.length then none
      else if isLike then
        some (List.zipWith (fun cur target => cur + lr * (target - cur)) cur listing)
      else
        some (List.zipWith (fun cur target => cur + lr * (cur - target)) cur listing)

/-- `n`-fold repetition of the *like* update of
`_adjust_preference_vector` with a fixed target vector (the iteration the
spec's convergence property quantifies over).  When the update signals
no-update the vector is kept unchanged (this branch is unreachable under
the convergence theorem's hypotheses). -/
noncomputable def likeIterate (lr : ℝ) (target : List ℝ) : ℕ → List ℝ → List ℝ
  | 0, cur => cur
  | n + 1, cur =>
    match adjust_preference_vector lr (some cur) target true with
    | some v => likeIterate lr target n v
    | none => likeIterate lr target n cur

/-- Euclidean distance between two equal-length vectors (the measure used
by the spec's convergence property). -/
noncomputable def euclidDist (v w : List ℝ) : ℝ :=
  Real.sqrt (sumSq (List.zipWith (fun a b => a - b) v w))

/-! ## Weighted qualitative score (engine.py `_calculate_weighted_score`) -/

/-- A value read out of a JSON dict and passed to the engine's `to_float`
helper: absent (`None` / missing key), a numeric value (anything `float()`
accepts), or a value on which `float()` raises. -/
inductive FloatLike where
  | missing : FloatLike
  | num (x : ℝ) : FloatLike
  | bad : FloatLike

/-- The `to_float(val, default=0.5)` helper of
`MatchingEngine._calculate_weighted_score` (engine.py lines 226-232). -/
noncomputable def to_float (default : ℝ) : FloatLike → ℝ
  | FloatLike.missing => default
  | FloatLike.num x => x
  | FloatLike.bad => default

/-- The six qualitative score entries of a listing's `scores` dict, as
read by `scores.get(...)` (each may be missing or malformed). -/
structure ScoresDict where
  quietness : FloatLike
  luminosity : FloatLike
  connectivity : FloatLike
  wfh_suitability : FloatLike
  modernity : FloatLike
  green_spaces : FloatLike

/-- A listing with no `"scores"` key: `listing.get("scores", {})` yields
`{}`, every `get` returns `None`. -/
def emptyScores : ScoresDict :=
  ⟨FloatLike.missing, FloatLike.missing, FloatLike.missing,
   FloatLike.missing, FloatLike.missing, FloatLike.missing⟩

/-- The user's six soft-preference weights as the engine reads them.  The
Python accepts either a `SoftPreferences` object (attribute access) or a
loose dict (`.get`); both forms funnel every field through
`to_float(..., default=0.5)`, so a single record of `FloatLike`s covers
both shapes. -/
structure SoftWeights where
  weight_quietness : FloatLike
  weight_luminosity : FloatLike
  weight_connectivity : FloatLike
  weight_wfh_suitability : FloatLike
  weight_modernity : FloatLike
  weight_green_spaces : FloatLike

/-- The `(score, weight)` pairs built by `_calculate_weighted_score`
(engine.py lines 256-263). -/
noncomputable def scoreWeightPairs (scores : ScoresDict) (soft : SoftWeights) :
    List (ℝ × ℝ) :=
  [(to_float 0.5 scores.quietness, to_float 0.5 soft.weight_quietness),
   (to_float 0.5 scores.luminosity, to_float 0.5 soft.weight_luminosity),
   (to_float 0.5 scores.connectivity, to_float 0.5 soft.weight_connectivity),
   (to_float 0.5 scores.wfh_suitability, to_float 0.5 soft.weight_wfh_suitability),
   (to_float 0.5 scores.modernity, to_float 0.5 soft.weight_modernity),
   (to_float 0.5 scores.green_spaces, to_float 0.5 soft.weight_green_spaces)]

/-- `MatchingEngine._calculate_weighted_score` (engine.py lines 213-271):
weight-normalized weighted average of the listing's six qualitative
scores, `0.5` when the total weight is zero.  `scores = none` models a
listing dict without a `"scores"` key. -/
noncomputable def calculate_weighted_score
    (scores : Option ScoresDict) (soft : SoftWeights) : ℝ :=
  let score_weights := scoreWeightPairs (scores.getD emptyScores) soft
  let total_weight := (score_weights.map fun p => p.2).sum
  if total_weight = 0 then 0.5
  else (score_weights.map fun p => p.1 * p.2).sum / total_weight

/-! ## Settings (config.py) -/

/-- The engine-relevant fields of `Settings` (config.py). -/
structure Settings where
  feedback_learning_rate : ℝ
  similarity_threshold : ℝ

/-- Default field values from config.py: `feedback_learning_rate = 0.1`,
`similarity_threshold = 0.85`. -/
noncomputable def defaultSettings : Settings :=
  { feedback_learning_rate := 0.1, similarity_threshold := 0.85 }

/-! ## Listings, hard filters and the matching engine (engine.py) -/

/-- `HardFilters` (models/user.py). -/
structure HardFilters where
  min_price_usd : Option ℝ
  max_price_usd : Option ℝ
  neighborhoods : List String
  min_rooms : Option ℤ
  max_rooms : Option ℤ
  min_size_m2 : Option ℝ
  operation_type : String
  requires_balcony : Bool
  requires_parking : Bool
  requires_pets_allowed : Bool
  requires_furnished : Bool

/-- The fields of an analyzed-listing row that the matching engine reads.
`has_balcony`, `is_pet_friendly`, `is_furnished` model
`raw.get("features", {}).get(...)` (a missing key is falsy, i.e. `false`);
`parking_spaces` models `listing.get("parking_spaces")` (`none` = missing
or `NULL`); `scores = none` models a row without a `"scores"` dict;
the two embedding fields are raw JSON-column values. -/
structure Listing where
  id : String
  price_usd : ℝ
  rooms : ℤ
  neighborhood : String
  operation_type : String
  has_balcony : Bool
  is_pet_friendly : Bool
  is_furnished : Bool
  parking_spaces : Option ℕ
  scores : Option ScoresDict
  embedding_vector : PyVal
  vibe_embedding : PyVal

/-- `if hard.requires_parking and not listing.get("parking_spaces")`:
the requirement is met only by a present, non-zero space count. -/
def parkingTruthy : Option ℕ → Bool
  | none => false
  | some n => n ≠ 0

/-- `MatchResult` (engine.py lines 27-35). -/
structure MatchResult where
  listing_id : String
  listing_data : Listing
  similarity_score : ℝ
  weighted_score : ℝ
  final_score : ℝ

/-- The descending-final-score comparator of the stable sort
`matches.sort(key=lambda m: m.final_score, reverse=True)`
(engine.py line 153). -/
noncomputable def byFinalScoreDesc (a b : MatchResult) : Bool :=
  decide (b.final_score ≤ a.final_score)

/-- `NotificationRepository.was_sent` (repositories.py lines 525-535):
whether a sent-notification row exists for `(user_id, listing_id)`.  The
append-only `sent_notifications` table is modelled as the list of its
`(user_id, analyzed_listing_id)` pairs. -/
def was_sent (sent : List (String × String)) (user_id listing_id : String) : Bool :=
  decide ((user_id, listing_id) ∈ sent)

/-- `AnalyzedListingRepository.search_by_filters` (repositories.py lines
235-266): conjunction of the optional `in`/`gte`/`lte` conditions, then
`limit`.  The database is modelled as the list of rows already in the
query's `ORDER BY analyzed_at DESC` order. -/
noncomputable def search_by_filters (db : List Listing)
    (neighborhoods : Option (List String)) (min_price max_price : Option ℝ)
    (min_rooms max_rooms : Option ℤ) (limit : ℕ) : List Listing :=
  (db.filter fun l =>
    (match neighborhoods with
     | none => true
     | some ns => decide (l.neighborhood ∈ ns)) &&
    (match min_price with
     | none => true
     | some p => decide (p ≤ l.price_usd)) &&
    (match max_price with
     | none => true
     | some p => decide (l.price_usd ≤ p)) &&
    (match min_rooms with
     | none => true
     | some r => decide (r ≤ l.rooms)) &&
    (match max_rooms with
     | none => true
     | some r => decide (l.rooms ≤ r))).take limit

/-- The neighborhoods argument of the SQL pre-filter:
`hard.neighborhoods if hard.neighborhoods else None` (engine.py line 83). -/
def neighborhoodsArg (hard : HardFilters) : Option (List String) :=
  if hard.neighborhoods.isEmpty then none else some hard.neighborhoods

/-- The scoring step of `find_matches_for_user` (engine.py lines 130-150):
semantic similarity, weighted qualitative score, and the final blend
`similarity * 0.6 + weighted * 0.4`. -/
noncomputable def scoreListing (l : Listing) (soft : SoftWeights)
    (preference_vector : PyVal) : MatchResult :=
  let similarity := calculate_similarity preference_vector l.embedding_vector l.vibe_embedding
  let weighted := calculate_weighted_score l.scores soft
  { listing_id := l.id
    listing_data := l
    similarity_score := similarity
    weighted_score := weighted
    final_score := similarity * 0.6 + weighted * 0.4 }

/-- `MatchingEngine.find_matches_for_user` (engine.py lines 59-166):
SQL pre-filter (`search_by_filters`, fetching `limit * 2` rows), dedup
against sent notifications, operation-type and must-have filters, scoring,
stable sort by descending final score, threshold filter, truncation to
`limit`. -/
noncomputable def find_matches_for_user (settings : Settings) (db : List Listing)
    (sent : List (String × String)) (user_id : String) (hard : HardFilters)
    (soft : SoftWeights) (preference_vector : PyVal) (limit : ℕ) :
    List MatchResult :=
  let listings := search_by_filters db (neighborhoodsArg hard)
    hard.min_price_usd hard.max_price_usd hard.min_rooms hard.max_rooms
    (limit * 2)
  if listings.isEmpty then []
  else
    let results := listings.filter fun l =>
      !(was_sent sent user_id l.id) &&
      decide (l.operation_type = hard.operation_type) &&
      (!hard.requires_balcony || l.has_balcony) &&
      (!hard.requires_pets_allowed || l.is_pet_friendly) &&
      (!hard.requires_furnished || l.is_furnished) &&
      (!hard.requires_parking || parkingTruthy l.parking_spaces)
    if results.isEmpty then []
    else
      let matchList := results.map fun l => scoreListing l soft preference_vector
      let sorted := matchList.mergeSort byFinalScoreDesc
      let aboveThreshold :=
        sorted.filter fun m => decide (settings.similarity_threshold ≤ m.final_score)
      aboveThreshold.take limit

/-! ## The matching cycle (engine.py `process_new_listings`) -/

/-- The per-user row data that `process_new_listings` reads from the user
store. -/
structure UserRow where
  id : String
  hard : HardFilters
  soft : SoftWeights
  preference_vector : PyVal

/-- The preference-vector preprocessing of `process_new_listings`
(engine.py lines 322-330): a truthy string is replaced by its `json.loads`
outcome (`None` on `JSONDecodeError`); everything else passes through. -/
def prepPreferenceVector : PyVal → PyVal
  | PyVal.pystr true parsed =>
    match parsed with
    | some v => v
    | none => PyVal.pynone
  | v => v

/-- Processing of one user inside `process_new_listings` (engine.py lines
304-367): find matches (at most 5 per run), dispatch each via the external
notifier (`sendOk`, the success value of `bot.send_listing_notification`),
and record a `sent_notifications` row only for confirmed sends.  State is
the sent-notification table plus the `notifications_sent` counter. -/
noncomputable def processUser (settings : Settings) (db : List Listing)
    (sendOk : String → String → Bool)
    (st : List (String × String) × ℕ) (u : UserRow) :
    List (String × String) × ℕ :=
  let matchList := find_matches_for_user settings db st.1 u.id u.hard u.soft
    (prepPreferenceVector u.preference_vector) 5
  matchList.foldl
    (fun acc m =>
      if sendOk u.id m.listing_id then (acc.1 ++ [(u.id, m.listing_id)], acc.2 + 1)
      else acc)
    st

/-- One matching cycle over the active users
(`MatchingEngine.process_new_listings`): every user is processed in turn
against the shared sent-notification table; returns the final table and
the cycle's `notifications_sent` count. -/
noncomputable def runCycle (settings : Settings) (db : List Listing)
    (sendOk : String → String → Bool) (users : List UserRow)
    (sent : List (String × String)) : List (String × String) × ℕ :=
  users.foldl (processUser settings db sendOk) (sent, 0)

/-! ## Room-count normalization (analysis/listing_analyzer.py) -/

/-- The room-count normalization of `ListingAnalyzer` (listing_analyzer.py
lines 373-376): `rooms = int(raw_listing.rooms)` with `rooms = 1` on
`ValueError`.  The argument is the outcome of Python's `int()` on the raw
string (`none` = `ValueError`). -/
def analyzedRooms : Option ℤ → ℤ
  | some n => n
  | none => 1

/-! ## Basic lemmas about the vector primitives -/

lemma sumSq_nonneg (v : List ℝ) : 0 ≤ sumSq v := by
  induction v with
  | nil => simp [sumSq]
  | cons a t ih =>
    have h : sumSq (a :: t) = a * a + sumSq t := by simp [sumSq]
    rw [h]
    exact add_nonneg (mul_self_nonneg a) ih

lemma sqrt_sumSq_eq_zero_iff (v : List ℝ) :
    Real.sqrt (sumSq v) = 0 ↔ sumSq v = 0 := by
  constructor
  · intro h
    have h0 := sumSq_nonneg v
    rcases lt_or_eq_of_le h0 with hlt | heq
    · exact absurd h (ne_of_gt (Real.sqrt_pos.mpr hlt))
    · exact heq.symm
  · intro h; rw [h, Real.sqrt_zero]

lemma zipWith_mul_self (v : List ℝ) :
    (List.zipWith (fun a b => a * b) v v).sum = sumSq v := by
  induction v with
  | nil => simp [sumSq]
  | cons a t ih =>
    simp only [List.zipWith_cons_cons, List.sum_cons]
    rw [ih]
    simp [sumSq]

lemma sumSq_map_neg (v : List ℝ) : sumSq (v.map fun x => -x) = sumSq v := by
  induction v with
  | nil => simp [sumSq]
  | cons a t ih =>
    simp only [List.map_cons, sumSq, List.sum_cons] at ih ⊢
    rw [neg_mul_neg]
    linarith

lemma zipWith_mul_neg_self (v : List ℝ) :
    (List.zipWith (fun a b => a * b) v (v.map fun x => -x)).sum = -sumSq v := by
  induction v with
  | nil => simp [sumSq]
  | cons a t ih =>
    simp only [List.map_cons, List.zipWith_cons_cons, List.sum_cons, sumSq,
      List.map_map] at ih ⊢
    rw [ih]
    ring

lemma rescaleClamp_mem_unitInterval (x : ℝ) :
    0 ≤ rescaleClamp x ∧ rescaleClamp x ≤ 1 := by
  constructor
  · exact le_max_left 0 _
  · have h : min 1 ((x + 1) / 2) ≤ 1 := min_le_left 1 _
    exact max_le (by norm_num) h

/-- C6 (claim): for any two vectors the rescaled-and-clamped similarity is
in `[0,1]`; identical non-zero vectors rescale to `1.0`; exactly opposite
non-zero vectors rescale to `0.0`; a zero norm makes the raw cosine `0`.
("non-zero" = non-zero Euclidean norm, i.e. `sumSq ≠ 0`.) -/
theorem umbral_C6_cosine_normalization :
    (∀ v w : List ℝ, 0 ≤ rescaleClamp (cosine_similarity v w) ∧
        rescaleClamp (cosine_similarity v w) ≤ 1) ∧
    (∀ v : List ℝ, sumSq v ≠ 0 → rescaleClamp (cosine_similarity v v) = 1) ∧
    (∀ v : List ℝ, sumSq v ≠ 0 →
        rescaleClamp (cosine_similarity v (v.map fun x => -x)) = 0) ∧
    (∀ v w : List ℝ, Real.sqrt (sumSq v) = 0 ∨ Real.sqrt (sumSq w) = 0 →
        cosine_similarity v w = 0) := by
  refine ⟨fun v w => rescaleClamp_mem_unitInterval _, ?_, ?_, ?_⟩
  · intro v hv
    have hpos : 0 < sumSq v := lt_of_le_of_ne (sumSq_nonneg v) (Ne.symm hv)
    have hs : Real.sqrt (sumSq v) ≠ 0 := by
      simpa [sqrt_sumSq_eq_zero_iff] using hv
    have hmul : Real.sqrt (sumSq v) * Real.sqrt (sumSq v) = sumSq v :=
      Real.mul_self_sqrt (sumSq_nonneg v)
    have hcos : cosine_similarity v v = 1 := by
      simp only [cosine_similarity, zipWith_mul_self]
      rw [if_neg (by tauto), hmul, div_self (ne_of_gt hpos)]
    rw [hcos]; simp [rescaleClamp]
  · intro v hv
    have hpos : 0 < sumSq v := lt_of_le_of_ne (sumSq_nonneg v) (Ne.symm hv)
    have hs : Real.sqrt (sumSq v) ≠ 0 := by
      simpa [sqrt_sumSq_eq_zero_iff] using hv
    have hsn : Real.sqrt (sumSq (v.map fun x => -x)) ≠ 0 := by
      rw [sumSq_map_neg]; exact hs
    have hmul : Real.sqrt (sumSq v) * Real.sqrt (sumSq v) = sumSq v :=
      Real.mul_self_sqrt (sumSq_nonneg v)
    have hcos : cosine_similarity v (v.map fun x => -x) = -1 := by
      simp only [cosine_similarity, zipWith_mul_neg_self, sumSq_map_neg]
      rw [if_neg (by tauto), hmul]
      field_simp
    rw [hcos]; simp [rescaleClamp]
  · intro v w h
    simp only [cosine_similarity]
    rw [if_pos h]

/-- Witness for C6 at a concrete input: `[3,4]` is a non-zero vector and
the engine's rescaled similarity of `[3,4]` with itself is exactly `1`. -/
theorem umbral_C6_witness :
    sumSq [(3 : ℝ), 4] ≠ 0 ∧
      rescaleClamp (cosine_similarity [(3 : ℝ), 4] [(3 : ℝ), 4]) = 1 :=
  ⟨by norm_num [sumSq],
   umbral_C6_cosine_normalization.2.1 [(3 : ℝ), 4] (by norm_num [sumSq])⟩

/-! ## C9: room-count default on parse failure -/

/-- C9 (counterexample): when `int(raw_listing.rooms)` raises, the
normalized room count is `1`, and a room count of `1` is excluded by a
`min_rooms = 2` hard filter — the claimed default `0` is not what the code
produces. -/
theorem umbral_C9_counterexample :
    analyzedRooms none = 1 ∧ 0 < analyzedRooms none := by
  exact ⟨rfl, by norm_num [analyzedRooms]⟩

/-- C9 (amended): an unparseable room-count string is normalized to `1`
(not `0`), and a listing so normalized is excluded by a `min_rooms = 2`
filter at the SQL hard-filter stage. -/
theorem umbral_C9_amended (l : Listing) (hrooms : l.rooms = analyzedRooms none) :
    search_by_filters [l] none none none (some 2) none 10 = [] := by
  have h1 : l.rooms = 1 := hrooms
  simp [search_by_filters, h1]

/-- Witness for the amended C9 at a concrete listing row. -/
theorem umbral_C9_amended_witness :
    search_by_filters
      [{ id := "x", price_usd := 500, rooms := analyzedRooms none,
         neighborhood := "Centro", operation_type := "alquiler",
         has_balcony := false, is_pet_friendly := false, is_furnished := false,
         parking_spaces := none, scores := none,
         embedding_vector := PyVal.pynone, vibe_embedding := PyVal.pynone }]
      none none none (some 2) none 10 = [] :=
  umbral_C9_amended _ rfl

/-! ## C10: behaviour of `cosine_similarity` on length-mismatched vectors -/

/-- Modelled from the claim's words, for refinement comparison only: the
cosine computed "over the common prefix only", i.e. both vectors truncated
to the shorter length before the dot product *and* the norms. -/
noncomputable def prefixCosine (v w : List ℝ) : ℝ :=
  cosine_similarity (v.take (min v.length w.length)) (w.take (min v.length w.length))

lemma sqrt_twentyfive : Real.sqrt (25 : ℝ) = 5 := by
  rw [show (25 : ℝ) = 5 ^ 2 by norm_num, Real.sqrt_sq (by norm_num : (0:ℝ) ≤ 5)]

lemma sqrt_nine : Real.sqrt (9 : ℝ) = 3 := by
  rw [show (9 : ℝ) = 3 ^ 2 by norm_num, Real.sqrt_sq (by norm_num : (0:ℝ) ≤ 3)]

/-- C10 (counterexample): on `vec1 = [3,4]`, `vec2 = [3]` the code returns
`9 / (5 * 3) = 3/5` — the dot product is truncated by `zip` but each norm
still ranges over the *full* vector — whereas the cosine over the common
prefixes is `1`.  So the returned value is not "the cosine over the common
prefix only". -/
theorem umbral_C10_counterexample :
    cosine_similarity [(3 : ℝ), 4] [(3 : ℝ)] = 3 / 5 ∧
      prefixCosine [(3 : ℝ), 4] [(3 : ℝ)] = 1 ∧
      (3 : ℝ) / 5 < 1 := by
  have h25 : sumSq [(3 : ℝ), 4] = 25 := by norm_num [sumSq]
  have h9 : sumSq [(3 : ℝ)] = 9 := by norm_num [sumSq]
  refine ⟨?_, ?_, by norm_num⟩
  · simp only [cosine_similarity, h25, h9, sqrt_twentyfive, sqrt_nine,
      List.zipWith_cons_cons, List.zipWith_nil_right, List.sum_cons, List.sum_nil]
    rw [if_neg (by norm_num)]
    norm_num
  · simp only [prefixCosine, List.length_cons, List.length_nil]
    norm_num
    simp only [cosine_similarity, h9, sqrt_nine, List.zipWith_cons_cons,
      List.zipWith_nil_right, List.sum_cons, List.sum_nil]
    rw [if_neg (by norm_num)]
    norm_num

lemma zipWith_take_right (f : ℝ → ℝ → ℝ) :
    ∀ (v w : List ℝ), List.zipWith f v (w.take v.length) = List.zipWith f v w := by
  intro v
  induction v with
  | nil => intro w; simp
  | cons a t ih =>
    intro w
    cases w with
    | nil => simp
    | cons b u => simp [List.zipWith_cons_cons, ih u]

/-- C10 (amended): for vectors of any lengths, `cosine_similarity` returns
(without raising or signalling a mismatch) the dot product over the common
prefix — here written as the dot with the longer vector truncated —
divided by the product of the two *full-vector* Euclidean norms. -/
theorem umbral_C10_amended (v w : List ℝ) (hv : sumSq v ≠ 0) (hw : sumSq w ≠ 0) :
    cosine_similarity v w =
      (List.zipWith (fun a b => a * b) v (w.take v.length)).sum /
        (Real.sqrt (sumSq v) * Real.sqrt (sumSq w)) := by
  have hsv : Real.sqrt (sumSq v) ≠ 0 := by simpa [sqrt_sumSq_eq_zero_iff] using hv
  have hsw : Real.sqrt (sumSq w) ≠ 0 := by simpa [sqrt_sumSq_eq_zero_iff] using hw
  simp only [cosine_similarity, zipWith_take_right]
  rw [if_neg (by tauto)]

/-- Witness for the amended C10 on the length-mismatched pair
`([3], [3,4])`. -/
theorem umbral_C10_amended_witness :
    cosine_similarity [(3 : ℝ)] [(3 : ℝ), 4] =
      (List.zipWith (fun a b => a * b) [(3 : ℝ)]
          (List.take (List.length [(3 : ℝ)]) [(3 : ℝ), 4])).sum /
        (Real.sqrt (sumSq [(3 : ℝ)]) * Real.sqrt (sumSq [(3 : ℝ), 4])) :=
  umbral_C10_amended [(3 : ℝ)] [(3 : ℝ), 4]
    (by norm_num [sumSq]) (by norm_num [sumSq])

/-! ## C1: the neutral-default law of `_calculate_similarity` -/

/-- C1 (counterexample): a length-mismatched pair of lists does *not*
produce the neutral score `0.5`: with preference vector `[1,0]` and
listing vector `[1]` the result is `1`. -/
theorem umbral_C1_counterexample :
    calculate_similarity (PyVal.pylist [(1 : ℝ), 0]) (PyVal.pylist [(1 : ℝ)])
        PyVal.pynone = 1 ∧ (1 : ℝ) / 2 < 1 := by
  refine ⟨?_, by norm_num⟩
  have h1 : sumSq [(1 : ℝ), 0] = 1 := by norm_num [sumSq]
  have h2 : sumSq [(1 : ℝ)] = 1 := by norm_num [sumSq]
  have hcos : cosine_similarity [(1 : ℝ), 0] [(1 : ℝ)] = 1 := by
    simp only [cosine_similarity, h1, h2, Real.sqrt_one, List.zipWith_cons_cons,
      List.zipWith_nil_right, List.sum_cons, List.sum_nil]
    rw [if_neg (by norm_num)]
    norm_num
  simp only [calculate_similarity, chosenListingVector, parsedListingVector,
    pyTruthy, List.isEmpty_cons]
  simp [hcos, rescaleClamp]

/-- C1 (amended): absent (falsy) preference vector, both listing-vector
fields absent (falsy), unparseable string listing vector, or a non-list on
either side all yield exactly `0.5`; but when both sides are non-empty
lists the engine computes the clamped rescaled cosine *regardless of the
two lengths* — a length mismatch is not mapped to `0.5`. -/
theorem umbral_C1_amended :
    (∀ pv e vb : PyVal, pyTruthy pv = false →
        calculate_similarity pv e vb = 0.5) ∧
    (∀ pv e vb : PyVal, pyTruthy e = false → pyTruthy vb = false →
        calculate_similarity pv e vb = 0.5) ∧
    (∀ (pv e vb : PyVal) (ne : Bool),
        chosenListingVector e vb = PyVal.pystr ne none →
        calculate_similarity pv e vb = 0.5) ∧
    (∀ pv e vb : PyVal, pyIsList pv = false →
        calculate_similarity pv e vb = 0.5) ∧
    (∀ (pv e vb v : PyVal), parsedListingVector e vb = some v →
        pyIsList v = false → calculate_similarity pv e vb = 0.5) ∧
    (∀ (xs ys : List ℝ) (e vb : PyVal), xs ≠ [] →
        pyTruthy (chosenListingVector e vb) = true →
        parsedListingVector e vb = some (PyVal.pylist ys) →
        calculate_similarity (PyVal.pylist xs) e vb =
          rescaleClamp (cosine_similarity xs ys)) := by
  refine ⟨?_, ?_, ?_, ?_, ?_, ?_⟩
  · intro pv e vb h
    simp [calculate_similarity, h]
  · intro pv e vb h1 h2
    by_cases hpv : pyTruthy pv
    · simp [calculate_similarity, chosenListingVector, hpv, h1, h2]
    · simp [calculate_similarity, hpv]
  · intro pv e vb ne h
    by_cases hpv : pyTruthy pv
    · by_cases hne : ne
      · simp [calculate_similarity, parsedListingVector, hpv, h, hne]
      · have : pyTruthy (chosenListingVector e vb) = false := by
          rw [h]; simp [pyTruthy]; exact Bool.of_not_eq_true hne
        simp [calculate_similarity, hpv, this]
    · simp [calculate_similarity, hpv]
  · intro pv e vb h
    by_cases hpv : pyTruthy pv
    · by_cases hlv : pyTruthy (chosenListingVector e vb)
      · cases hp : parsedListingVector e vb with
        | none => simp [calculate_similarity, hpv, hlv, hp]
        | some v =>
          cases pv with
          | pylist xs => simp [pyIsList] at h
          | pynone => simp [pyTruthy] at hpv
          | pystr ne p =>
            cases v <;> simp [calculate_similarity, hpv, hlv, hp]
          | pyother t =>
            cases v <;> simp [calculate_similarity, hpv, hlv, hp]
      · simp [calculate_similarity, hpv, hlv]
    · simp [calculate_similarity, hpv]
  · intro pv e vb v hp hv
    by_cases hpv : pyTruthy pv
    · by_cases hlv : pyTruthy (chosenListingVector e vb)
      · cases v with
        | pylist xs => simp [pyIsList] at hv
        | pynone => cases pv <;> simp [calculate_similarity, hpv, hlv, hp]
        | pystr ne p => cases pv <;> simp [calculate_similarity, hpv, hlv, hp]
        | pyother t => cases pv <;> simp [calculate_similarity, hpv, hlv, hp]
      · simp [calculate_similarity, hpv, hlv]
    · simp [calculate_similarity, hpv]
  · intro xs ys e vb hxs hlv hp
    have hpv : pyTruthy (PyVal.pylist xs) = true := by
      simp [pyTruthy, List.isEmpty_iff]; exact hxs
    simp [calculate_similarity, hpv, hlv, hp]

/-- Witness for the amended C1: an absent preference vector gives exactly
`0.5`. -/
theorem umbral_C1_amended_witness :
    calculate_similarity PyVal.pynone (PyVal.pylist [(1 : ℝ)]) PyVal.pynone = 0.5 :=
  umbral_C1_amended.1 PyVal.pynone (PyVal.pylist [(1 : ℝ)]) PyVal.pynone rfl

/-! ## C3: the feedback update rule -/

lemma getD_zipWith (f : ℝ → ℝ → ℝ) (v w : List ℝ) (i : ℕ)
    (hv : i < v.length) (hw : i < w.length) :
    (List.zipWith f v w).getD i 0 = f (v.getD i 0) (w.getD i 0) := by
  simp only [List.getD_eq_getElem?_getD, List.getElem?_zipWith,
    List.getElem?_eq_getElem hv, List.getElem?_eq_getElem hw]
  rfl

lemma adjust_like_eq (lr : ℝ) (cur listing : List ℝ)
    (h1 : cur ≠ []) (h2 : cur.length = listing.length) :
    adjust_preference_vector lr (some cur) listing true =
      some (List.zipWith (fun cur target => cur + lr * (target - cur)) cur listing) := by
  have hlist : listing ≠ [] := by
    intro h
    rw [h] at h2
    exact h1 (List.eq_nil_of_length_eq_zero (by simpa using h2))
  cases cur with
  | nil => exact absurd rfl h1
  | cons a t =>
    simp [adjust_preference_vector, List.isEmpty_iff, hlist, h2]

lemma adjust_dislike_eq (lr : ℝ) (cur listing : List ℝ)
    (h1 : cur ≠ []) (h2 : cur.length = listing.length) :
    adjust_preference_vector lr (some cur) listing false =
      some (List.zipWith (fun cur target => cur + lr * (cur - target)) cur listing) := by
  have hlist : listing ≠ [] := by
    intro h
    rw [h] at h2
    exact h1 (List.eq_nil_of_length_eq_zero (by simpa using h2))
  cases cur with
  | nil => exact absurd rfl h1
  | cons a t =>
    simp [adjust_preference_vector, List.isEmpty_iff, hlist, h2]

/-- C3 (claim): the feedback update, in the order the code checks its
cases: empty/absent listing vector ⇒ no update; absent (falsy) current
vector ⇒ adopt the listing vector on a like, no update on a dislike;
length mismatch ⇒ no update; otherwise per dimension
`new = cur + α·(target − cur)` on a like and `new = cur + α·(cur − target)`
on a dislike. -/
theorem umbral_C3_feedback_update (lr : ℝ) :
    (∀ (current : Option (List ℝ)) (isLike : Bool),
        adjust_preference_vector lr current [] isLike = none) ∧
    (∀ (current : Option (List ℝ)) (listing : List ℝ), listing ≠ [] →
        (current = none ∨ current = some []) →
        adjust_preference_vector lr current listing true = some listing ∧
        adjust_preference_vector lr current listing false = none) ∧
    (∀ (cur listing : List ℝ) (isLike : Bool), cur ≠ [] →
        cur.length ≠ listing.length →
        adjust_preference_vector lr (some cur) listing isLike = none) ∧
    (∀ (cur listing : List ℝ), cur ≠ [] → cur.length = listing.length →
        (∃ r, adjust_preference_vector lr (some cur) listing true = some r ∧
          r.length = cur.length ∧
          ∀ i : ℕ, i < cur.length →
            r.getD i 0 = cur.getD i 0 + lr * (listing.getD i 0 - cur.getD i 0)) ∧
        (∃ r, adjust_preference_vector lr (some cur) listing false = some r ∧
          r.length = cur.length ∧
          ∀ i : ℕ, i < cur.length →
            r.getD i 0 = cur.getD i 0 + lr * (cur.getD i 0 - listing.getD i 0))) := by
  refine ⟨?_, ?_, ?_, ?_⟩
  · intro current isLike
    simp [adjust_preference_vector]
  · intro current listing hlist hcur
    have he : listing.isEmpty = false := by
      simp [List.isEmpty_iff]; exact hlist
    rcases hcur with h | h <;> subst h <;>
      simp [adjust_preference_vector, he]
  · intro cur listing isLike h1 h2
    have he : listing.isEmpty = false ∨ listing = [] := by
      by_cases h : listing = []
      · exact Or.inr h
      · exact Or.inl (by simp [List.isEmpty_iff]; exact h)
    cases cur with
    | nil => exact absurd rfl h1
    | cons a t =>
      rcases he with he | he
      · cases isLike <;> simp [adjust_preference_vector, he] <;> simpa using h2
      · subst he; simp [adjust_preference_vector]
  · intro cur listing h1 h2
    have hi2 : ∀ i : ℕ, i < cur.length → i < listing.length := fun i hi => h2 ▸ hi
    constructor
    · refine ⟨_, adjust_like_eq lr cur listing h1 h2, ?_, ?_⟩
      · rw [List.length_zipWith, h2, min_self]
      · intro i hi
        rw [getD_zipWith _ _ _ _ hi (hi2 i hi)]
    · refine ⟨_, adjust_dislike_eq lr cur listing h1 h2, ?_, ?_⟩
      · rw [List.length_zipWith, h2, min_self]
      · intro i hi
        rw [getD_zipWith _ _ _ _ hi (hi2 i hi)]

/-- Witness for C3: a like with no prior vector adopts the listing vector,
and a dislike with no prior vector stays without one. -/
theorem umbral_C3_witness :
    adjust_preference_vector 0.1 none [(3 : ℝ), 4] true = some [(3 : ℝ), 4] ∧
      adjust_preference_vector 0.1 none [(3 : ℝ), 4] false = none :=
  (umbral_C3_feedback_update 0.1).2.1 none [(3 : ℝ), 4] (by simp) (Or.inl rfl)

/-! ## C4: monotone convergence of repeated like updates -/

lemma sumSq_eq_zero_iff (v : List ℝ) : sumSq v = 0 ↔ ∀ x ∈ v, x = 0 := by
  induction v with
  | nil => simp [sumSq]
  | cons a t ih =>
    have hs : sumSq (a :: t) = a * a + sumSq t := by simp [sumSq]
    rw [hs]
    constructor
    · intro h
      have h1 : a * a = 0 ∧ sumSq t = 0 := by
        constructor <;>
          nlinarith [mul_self_nonneg a, sumSq_nonneg t]
      have ha : a = 0 := by nlinarith [h1.1]
      intro x hx
      rcases List.mem_cons.mp hx with hx | hx
      · rw [hx]; exact ha
      · exact (ih.mp h1.2) x hx
    · intro h
      have ha : a = 0 := h a (List.mem_cons_self a t)
      have ht : sumSq t = 0 := ih.mpr fun x hx => h x (List.mem_cons_of_mem a hx)
      rw [ha, ht]; ring

lemma eq_of_zipWith_sub_zero :
    ∀ (v w : List ℝ), v.length = w.length →
      (∀ x ∈ List.zipWith (fun a b => a - b) v w, x = 0) → v = w := by
  intro v
  induction v with
  | nil =>
    intro w hlen _
    exact (List.eq_nil_of_length_eq_zero (by simpa using hlen.symm)).symm
  | cons a t ih =>
    intro w hlen hz
    cases w with
    | nil => simp at hlen
    | cons b u =>
      simp only [List.zipWith_cons_cons] at hz
      have hab : a - b = 0 := hz _ (List.mem_cons_self _ _)
      have ht : t = u := by
        refine ih u (by simpa using hlen) fun x hx => hz x (List.mem_cons_of_mem _ hx)
      rw [ht, sub_eq_zero.mp hab]

lemma diff_sumSq_pos (v w : List ℝ) (hlen : v.length = w.length) (hne : v ≠ w) :
    0 < sumSq (List.zipWith (fun a b => a - b) v w) := by
  rcases lt_or_eq_of_le (sumSq_nonneg (List.zipWith (fun a b => a - b) v w)) with h | h
  · exact h
  · exact absurd (eq_of_zipWith_sub_zero v w hlen
      ((sumSq_eq_zero_iff _).mp h.symm)) hne

lemma diff_likeStep (lr : ℝ) :
    ∀ (cur tgt : List ℝ),
      List.zipWith (fun a b => a - b)
          (List.zipWith (fun cur target => cur + lr * (target - cur)) cur tgt) tgt =
        (List.zipWith (fun a b => a - b) cur tgt).map fun x => (1 - lr) * x := by
  intro cur
  induction cur with
  | nil => intro tgt; simp
  | cons a t ih =>
    intro tgt
    cases tgt with
    | nil => simp
    | cons b u =>
      simp only [List.zipWith_cons_cons, List.map_cons, ih u, List.cons.injEq]
      exact ⟨by ring, trivial⟩

lemma sumSq_map_const_mul (k : ℝ) (v : List ℝ) :
    sumSq (v.map fun x => k * x) = k ^ 2 * sumSq v := by
  induction v with
  | nil => simp [sumSq]
  | cons a t ih =>
    simp only [List.map_cons, sumSq, List.sum_cons, List.map_map] at ih ⊢
    rw [ih]
    ring

lemma likeIterate_diff (lr : ℝ) (tgt : List ℝ) (htgt : tgt ≠ []) :
    ∀ (n : ℕ) (cur : List ℝ), cur.length = tgt.length →
      (likeIterate lr tgt n cur).length = tgt.length ∧
      sumSq (List.zipWith (fun a b => a - b) (likeIterate lr tgt n cur) tgt) =
        ((1 - lr) ^ 2) ^ n *
          sumSq (List.zipWith (fun a b => a - b) cur tgt) := by
  intro n
  induction n with
  | zero => intro cur hlen; simp [likeIterate, hlen]
  | succ n ih =>
    intro cur hlen
    have hcur : cur ≠ [] := by
      intro h
      rw [h] at hlen
      exact htgt (List.eq_nil_of_length_eq_zero (by simpa using hlen.symm))
    have hstep := adjust_like_eq lr cur tgt hcur hlen
    have hunfold : likeIterate lr tgt (n + 1) cur =
        likeIterate lr tgt n
          (List.zipWith (fun cur target => cur + lr * (target - cur)) cur tgt) := by
      rw [likeIterate, hstep]
    have hlen2 : (List.zipWith (fun cur target => cur + lr * (target - cur))
        cur tgt).length = tgt.length := by
      rw [List.length_zipWith, hlen, min_self]
    obtain ⟨ihlen, ihsum⟩ := ih _ hlen2
    rw [hunfold]
    refine ⟨ihlen, ?_⟩
    rw [ihsum, diff_likeStep, sumSq_map_const_mul]
    ring

/-- C4 (claim): with `0 < α < 1` and `current ≠ target` of equal lengths,
each like update strictly decreases the Euclidean distance to the target,
and after any finite number of like updates the distance is still
positive. -/
theorem umbral_C4_like_convergence (lr : ℝ) (cur tgt : List ℝ)
    (hlen : cur.length = tgt.length) (hne : cur ≠ tgt)
    (h0 : 0 < lr) (h1 : lr < 1) :
    (∀ n : ℕ, euclidDist (likeIterate lr tgt (n + 1) cur) tgt <
        euclidDist (likeIterate lr tgt n cur) tgt) ∧
    (∀ n : ℕ, 0 < euclidDist (likeIterate lr tgt n cur) tgt) := by
  have htgt : tgt ≠ [] := by
    intro h
    subst h
    have hc : cur = [] := List.eq_nil_of_length_eq_zero (by simpa using hlen)
    exact hne (by rw [hc])
  have hs0 : 0 < sumSq (List.zipWith (fun a b => a - b) cur tgt) :=
    diff_sumSq_pos cur tgt hlen hne
  have hlr : 0 < 1 - lr := by linarith
  have hq0 : 0 < (1 - lr) ^ 2 := by positivity
  have hq1 : (1 - lr) ^ 2 < 1 := by nlinarith
  have hD : ∀ n : ℕ,
      sumSq (List.zipWith (fun a b => a - b) (likeIterate lr tgt n cur) tgt) =
        ((1 - lr) ^ 2) ^ n *
          sumSq (List.zipWith (fun a b => a - b) cur tgt) :=
    fun n => (likeIterate_diff lr tgt htgt n cur hlen).2
  constructor
  · intro n
    have hlt : ((1 - lr) ^ 2) ^ (n + 1) *
          sumSq (List.zipWith (fun a b => a - b) cur tgt) <
        ((1 - lr) ^ 2) ^ n *
          sumSq (List.zipWith (fun a b => a - b) cur tgt) := by
      have hp : ((1 - lr) ^ 2) ^ (n + 1) < ((1 - lr) ^ 2) ^ n :=
        pow_lt_pow_right_of_lt_one₀ hq0 hq1 (Nat.lt_succ_self n)
      exact mul_lt_mul_of_pos_right hp hs0
    have h2 : 0 ≤ ((1 - lr) ^ 2) ^ (n + 1) *
        sumSq (List.zipWith (fun a b => a - b) cur tgt) := by positivity
    simp only [euclidDist, hD]
    exact Real.sqrt_lt_sqrt h2 hlt
  · intro n
    have hp : 0 < ((1 - lr) ^ 2) ^ n *
        sumSq (List.zipWith (fun a b => a - b) cur tgt) := by positivity
    simp only [euclidDist, hD]
    exact Real.sqrt_pos.mpr hp

/-- Witness for C4: one like update from `[0]` toward `[1]` with `α = 1/2`
strictly decreases the distance to `[1]`. -/
theorem umbral_C4_witness :
    euclidDist (likeIterate (1 / 2 : ℝ) [(1 : ℝ)] 1 [(0 : ℝ)]) [(1 : ℝ)] <
      euclidDist (likeIterate (1 / 2 : ℝ) [(1 : ℝ)] 0 [(0 : ℝ)]) [(1 : ℝ)] :=
  (umbral_C4_like_convergence (1 / 2) [(0 : ℝ)] [(1 : ℝ)]
    (by simp) (by norm_num) (by norm_num) (by norm_num)).1 0

/-! ## C8: scoring totality and range -/

/-- A dict value that, *when it carries a number*, carries one in `[0,1]`
(missing or malformed values are unconstrained: `to_float` replaces them
by the in-range default `0.5`). -/
def floatInBounds : FloatLike → Prop
  | FloatLike.num x => 0 ≤ x ∧ x ≤ 1
  | _ => True

/-- All six qualitative scores of a listing are in bounds. -/
def scoresDictInBounds (s : ScoresDict) : Prop :=
  floatInBounds s.quietness ∧ floatInBounds s.luminosity ∧
  floatInBounds s.connectivity ∧ floatInBounds s.wfh_suitability ∧
  floatInBounds s.modernity ∧ floatInBounds s.green_spaces

/-- All six soft-preference weights are in bounds. -/
def weightsInBounds (w : SoftWeights) : Prop :=
  floatInBounds w.weight_quietness ∧ floatInBounds w.weight_luminosity ∧
  floatInBounds w.weight_connectivity ∧ floatInBounds w.weight_wfh_suitability ∧
  floatInBounds w.weight_modernity ∧ floatInBounds w.weight_green_spaces

lemma to_float_mem (f : FloatLike) (h : floatInBounds f) :
    0 ≤ to_float 0.5 f ∧ to_float 0.5 f ≤ 1 := by
  cases f with
  | missing => norm_num [to_float]
  | num x => simpa [to_float, floatInBounds] using h
  | bad => norm_num [to_float]

lemma calculate_similarity_mem (pv e vb : PyVal) :
    0 ≤ calculate_similarity pv e vb ∧ calculate_similarity pv e vb ≤ 1 := by
  unfold calculate_similarity
  split
  · norm_num
  · split
    · norm_num
    · split
      · norm_num
      · split
        · exact rescaleClamp_mem_unitInterval _
        · norm_num

lemma calculate_weighted_score_mem (scores : Option ScoresDict) (soft : SoftWeights)
    (hs : scoresDictInBounds (scores.getD emptyScores)) (hw : weightsInBounds soft) :
    0 ≤ calculate_weighted_score scores soft ∧
      calculate_weighted_score scores soft ≤ 1 := by
  obtain ⟨hs1, hs2, hs3, hs4, hs5, hs6⟩ := hs
  obtain ⟨hw1, hw2, hw3, hw4, hw5, hw6⟩ := hw
  obtain ⟨s1a, s1b⟩ := to_float_mem _ hs1
  obtain ⟨s2a, s2b⟩ := to_float_mem _ hs2
  obtain ⟨s3a, s3b⟩ := to_float_mem _ hs3
  obtain ⟨s4a, s4b⟩ := to_float_mem _ hs4
  obtain ⟨s5a, s5b⟩ := to_float_mem _ hs5
  obtain ⟨s6a, s6b⟩ := to_float_mem _ hs6
  obtain ⟨w1a, w1b⟩ := to_float_mem _ hw1
  obtain ⟨w2a, w2b⟩ := to_float_mem _ hw2
  obtain ⟨w3a, w3b⟩ := to_float_mem _ hw3
  obtain ⟨w4a, w4b⟩ := to_float_mem _ hw4
  obtain ⟨w5a, w5b⟩ := to_float_mem _ hw5
  obtain ⟨w6a, w6b⟩ := to_float_mem _ hw6
  simp only [calculate_weighted_score, scoreWeightPairs, List.map_cons,
    List.sum_cons, List.map_nil, List.sum_nil] at *
  split
  · norm_num
  · rename_i htot
    have hge : (0 : ℝ) ≤ to_float 0.5 soft.weight_quietness +
        (to_float 0.5 soft.weight_luminosity +
          (to_float 0.5 soft.weight_connectivity +
            (to_float 0.5 soft.weight_wfh_suitability +
              (to_float 0.5 soft.weight_modernity +
                (to_float 0.5 soft.weight_green_spaces + 0))))) := by linarith
    have hpos : (0 : ℝ) < to_float 0.5 soft.weight_quietness +
        (to_float 0.5 soft.weight_luminosity +
          (to_float 0.5 soft.weight_connectivity +
            (to_float 0.5 soft.weight_wfh_suitability +
              (to_float 0.5 soft.weight_modernity +
                (to_float 0.5 soft.weight_green_spaces + 0))))) :=
      lt_of_le_of_ne hge (fun h => htot h.symm)
    constructor
    · apply div_nonneg _ hge
      have p1 : (0 : ℝ) ≤ to_float 0.5 (scores.getD emptyScores).quietness *
          to_float 0.5 soft.weight_quietness := mul_nonneg s1a w1a
      have p2 : (0 : ℝ) ≤ to_float 0.5 (scores.getD emptyScores).luminosity *
          to_float 0.5 soft.weight_luminosity := mul_nonneg s2a w2a
      have p3 : (0 : ℝ) ≤ to_float 0.5 (scores.getD emptyScores).connectivity *
          to_float 0.5 soft.weight_connectivity := mul_nonneg s3a w3a
      have p4 : (0 : ℝ) ≤ to_float 0.5 (scores.getD emptyScores).wfh_suitability *
          to_float 0.5 soft.weight_wfh_suitability := mul_nonneg s4a w4a
      have p5 : (0 : ℝ) ≤ to_float 0.5 (scores.getD emptyScores).modernity *
          to_float 0.5 soft.weight_modernity := mul_nonneg s5a w5a
      have p6 : (0 : ℝ) ≤ to_float 0.5 (scores.getD emptyScores).green_spaces *
          to_float 0.5 soft.weight_green_spaces := mul_nonneg s6a w6a
      linarith
    · rw [div_le_one hpos]
      have q1 : to_float 0.5 (scores.getD emptyScores).quietness *
          to_float 0.5 soft.weight_quietness ≤ to_float 0.5 soft.weight_quietness :=
        mul_le_of_le_one_left w1a s1b
      have q2 : to_float 0.5 (scores.getD emptyScores).luminosity *
          to_float 0.5 soft.weight_luminosity ≤ to_float 0.5 soft.weight_luminosity :=
        mul_le_of_le_one_left w2a s2b
      have q3 : to_float 0.5 (scores.getD emptyScores).connectivity *
          to_float 0.5 soft.weight_connectivity ≤
            to_float 0.5 soft.weight_connectivity :=
        mul_le_of_le_one_left w3a s3b
      have q4 : to_float 0.5 (scores.getD emptyScores).wfh_suitability *
          to_float 0.5 soft.weight_wfh_suitability ≤
            to_float 0.5 soft.weight_wfh_suitability :=
        mul_le_of_le_one_left w4a s4b
      have q5 : to_float 0.5 (scores.getD emptyScores).modernity *
          to_float 0.5 soft.weight_modernity ≤ to_float 0.5 soft.weight_modernity :=
        mul_le_of_le_one_left w5a s5b
      have q6 : to_float 0.5 (scores.getD emptyScores).green_spaces *
          to_float 0.5 soft.weight_green_spaces ≤
            to_float 0.5 soft.weight_green_spaces :=
        mul_le_of_le_one_left w6a s6b
      linarith

/-- The soft-preference weights of a user whose dict has no usable weight
entries: every field falls back to the `to_float` default `0.5`. -/
def softAllMissing : SoftWeights :=
  ⟨FloatLike.missing, FloatLike.missing, FloatLike.missing,
   FloatLike.missing, FloatLike.missing, FloatLike.missing⟩

/-- A scores dict carrying the out-of-range numeric value `5.0`. -/
def badScores : ScoresDict :=
  { quietness := FloatLike.num 5, luminosity := FloatLike.missing,
    connectivity := FloatLike.missing, wfh_suitability := FloatLike.missing,
    modernity := FloatLike.missing, green_spaces := FloatLike.missing }

/-- C8 (counterexample): a listing whose stored `quietness` score is the
(numeric, successfully parsed) out-of-range value `5.0` produces a
weighted score of `5/4`, outside `[0,1]` — the code applies no clamping
to values that `float()` accepts. -/
theorem umbral_C8_counterexample :
    calculate_weighted_score (some badScores) softAllMissing = 5 / 4 ∧
      (1 : ℝ) < 5 / 4 := by
  refine ⟨?_, by norm_num⟩
  simp only [calculate_weighted_score, scoreWeightPairs, badScores, softAllMissing,
    Option.getD_some, List.map_cons, List.sum_cons, List.map_nil, List.sum_nil,
    to_float]
  rw [if_neg (by norm_num)]
  norm_num

/-- C8 (amended): the three scoring outputs are total functions (the
shallow embedding has no exception path: parse failures are mapped to
defaults); the similarity score is always in `[0,1]`; and the weighted
score and the final blend `0.6·sim + 0.4·weighted` are in `[0,1]`
*provided* every numeric score/weight value that parses lies in `[0,1]` —
without that proviso the weighted score can leave `[0,1]`. -/
theorem umbral_C8_amended :
    (∀ pv e vb : PyVal,
        0 ≤ calculate_similarity pv e vb ∧ calculate_similarity pv e vb ≤ 1) ∧
    (∀ (scores : Option ScoresDict) (soft : SoftWeights),
        scoresDictInBounds (scores.getD emptyScores) → weightsInBounds soft →
        0 ≤ calculate_weighted_score scores soft ∧
          calculate_weighted_score scores soft ≤ 1) ∧
    (∀ (l : Listing) (soft : SoftWeights) (pv : PyVal),
        scoresDictInBounds (l.scores.getD emptyScores) → weightsInBounds soft →
        0 ≤ (scoreListing l soft pv).final_score ∧
          (scoreListing l soft pv).final_score ≤ 1) := by
  refine ⟨calculate_similarity_mem, calculate_weighted_score_mem, ?_⟩
  intro l soft pv hs hw
  obtain ⟨ha, hb⟩ := calculate_similarity_mem pv l.embedding_vector l.vibe_embedding
  obtain ⟨hc, hd⟩ := calculate_weighted_score_mem l.scores soft hs hw
  simp only [scoreListing]
  constructor <;> nlinarith

/-- Witness for the amended C8: a listing row without a scores dict and a
user without weight entries give a weighted score inside `[0,1]`. -/
theorem umbral_C8_amended_witness :
    0 ≤ calculate_weighted_score none softAllMissing ∧
      calculate_weighted_score none softAllMissing ≤ 1 :=
  umbral_C8_amended.2.1 none softAllMissing
    (by simp [scoresDictInBounds, emptyScores, floatInBounds])
    (by simp [weightsInBounds, softAllMissing, floatInBounds])

/-! ## C7: ordering, threshold gate and cap of the returned match list -/

lemma byFinalScoreDesc_trans (a b c : MatchResult)
    (hab : byFinalScoreDesc a b) (hbc : byFinalScoreDesc b c) :
    byFinalScoreDesc a c := by
  simp only [byFinalScoreDesc, decide_eq_true_eq] at *
  exact le_trans hbc hab

lemma byFinalScoreDesc_total (a b : MatchResult) :
    byFinalScoreDesc a b || byFinalScoreDesc b a := by
  simp only [byFinalScoreDesc, Bool.or_eq_true, decide_eq_true_eq]
  exact le_total b.final_score a.final_score

lemma sorted_filter_take (l : List MatchResult) (p : MatchResult → Bool) (n : ℕ) :
    (((l.mergeSort byFinalScoreDesc).filter p).take n).Pairwise
      (fun a b => b.final_score ≤ a.final_score) := by
  have hsorted := @List.sorted_mergeSort MatchResult byFinalScoreDesc
    byFinalScoreDesc_trans byFinalScoreDesc_total l
  have himp : ∀ a b : MatchResult, byFinalScoreDesc a b →
      b.final_score ≤ a.final_score := by
    intro a b h
    simpa [byFinalScoreDesc, decide_eq_true_eq] using h
  exact ((hsorted.imp (himp _ _)).filter _).take

/-- C7 (claim): `find_matches_for_user` returns a list sorted by
descending final score, containing only results at or above the
configured similarity threshold, truncated to at most `limit` entries
(`limit = 5` in the orchestrator's call), with default threshold `0.85`. -/
theorem umbral_C7_ranking :
    (∀ (settings : Settings) (db : List Listing) (sent : List (String × String))
        (user_id : String) (hard : HardFilters) (soft : SoftWeights)
        (pv : PyVal) (limit : ℕ),
      (find_matches_for_user settings db sent user_id hard soft pv limit).Pairwise
          (fun a b => b.final_score ≤ a.final_score) ∧
      (∀ m ∈ find_matches_for_user settings db sent user_id hard soft pv limit,
          settings.similarity_threshold ≤ m.final_score) ∧
      (find_matches_for_user settings db sent user_id hard soft pv limit).length ≤
        limit) ∧
    defaultSettings.similarity_threshold = 0.85 := by
  constructor
  · intro settings db sent user_id hard soft pv limit
    refine ⟨?_, ?_, ?_⟩
    · simp only [find_matches_for_user]
      generalize (search_by_filters db (neighborhoodsArg hard)
        hard.min_price_usd hard.max_price_usd hard.min_rooms hard.max_rooms
        (limit * 2)) = listings
      split
      · simp
      · split
        · simp
        · exact sorted_filter_take _ _ _
    · simp only [find_matches_for_user]
      generalize (search_by_filters db (neighborhoodsArg hard)
        hard.min_price_usd hard.max_price_usd hard.min_rooms hard.max_rooms
        (limit * 2)) = listings
      split
      · simp
      · split
        · simp
        · intro m hm
          have hmem := List.mem_of_mem_take hm
          have := (List.mem_filter.mp hmem).2
          simpa [decide_eq_true_eq] using this
    · simp only [find_matches_for_user]
      generalize (search_by_filters db (neighborhoodsArg hard)
        hard.min_price_usd hard.max_price_usd hard.min_rooms hard.max_rooms
        (limit * 2)) = listings
      split
      · simp
      · split
        · simp
        · exact List.length_take_le _ _
  · norm_num [defaultSettings]

/-- A fully permissive hard-filter record (no optional bound set, no
must-have flags, rental operation). -/
def hardOpen : HardFilters :=
  { min_price_usd := none, max_price_usd := none, neighborhoods := [],
    min_rooms := none, max_rooms := none, min_size_m2 := none,
    operation_type := "alquiler", requires_balcony := false,
    requires_parking := false, requires_pets_allowed := false,
    requires_furnished := false }

/-- Witness for C7 at a concrete call (empty candidate set, cap 5). -/
theorem umbral_C7_witness :
    (find_matches_for_user defaultSettings [] [] "u" hardOpen softAllMissing
        PyVal.pynone 5).length ≤ 5 :=
  (umbral_C7_ranking.1 defaultSettings [] [] "u" hardOpen softAllMissing
    PyVal.pynone 5).2.2

/-! ## C2: the end-to-end two-listing scenario -/

/-- Hard filters of the scenario user: `max_price_usd = 1000`,
`min_rooms = 2`, no other constraint. -/
def hardC2 : HardFilters :=
  { min_price_usd := none, max_price_usd := some 1000, neighborhoods := [],
    min_rooms := some 2, max_rooms := none, min_size_m2 := none,
    operation_type := "alquiler", requires_balcony := false,
    requires_parking := false, requires_pets_allowed := false,
    requires_furnished := false }

/-- A scores dict whose six entries are all the in-range value `1.0`. -/
def scoresOnes : ScoresDict :=
  ⟨FloatLike.num 1, FloatLike.num 1, FloatLike.num 1,
   FloatLike.num 1, FloatLike.num 1, FloatLike.num 1⟩

/-- The scenario's preference vector `V = [19, √39]` (Euclidean norm 20). -/
noncomputable def vecV : List ℝ := [19, Real.sqrt 39]

/-- Listing A: price 900 USD, 2 rooms, embedding `[20, 0]` (cosine `0.95`
with `V`), qualitative scores all `1.0`. -/
def listingA : Listing :=
  { id := "A", price_usd := 900, rooms := 2, neighborhood := "Palermo",
    operation_type := "alquiler", has_balcony := false,
    is_pet_friendly := false, is_furnished := false, parking_spaces := none,
    scores := some scoresOnes,
    embedding_vector := PyVal.pylist [20, 0], vibe_embedding := PyVal.pynone }

/-- Listing A with its qualitative scores absent (for the counterexample
run). -/
def listingA0 : Listing :=
  { listingA with scores := none }

/-- Listing B: price 1500 USD, 2 rooms. -/
def listingB : Listing :=
  { id := "B", price_usd := 1500, rooms := 2, neighborhood := "Palermo",
    operation_type := "alquiler", has_balcony := false,
    is_pet_friendly := false, is_furnished := false, parking_spaces := none,
    scores := none,
    embedding_vector := PyVal.pylist [20, 0], vibe_embedding := PyVal.pynone }

/-- The scenario candidate table. -/
def dbC2 : List Listing := [listingA, listingB]

/-- The scenario candidate table with A's scores absent. -/
def dbC2n : List Listing := [listingA0, listingB]

lemma sqrt_four_hundred : Real.sqrt (400 : ℝ) = 20 := by
  rw [show (400 : ℝ) = 20 ^ 2 by norm_num, Real.sqrt_sq (by norm_num : (0:ℝ) ≤ 20)]

lemma sumSq_vecV : sumSq [(19 : ℝ), Real.sqrt 39] = 400 := by
  have h : Real.sqrt 39 * Real.sqrt 39 = 39 :=
    Real.mul_self_sqrt (by norm_num : (0:ℝ) ≤ 39)
  simp only [sumSq, List.map_cons, List.map_nil, List.sum_cons,
    List.sum_nil, h]
  norm_num

lemma cosine_V_A : cosine_similarity vecV [(20 : ℝ), 0] = 19 / 20 := by
  have h400 : sumSq [(20 : ℝ), 0] = 400 := by norm_num [sumSq]
  simp only [cosine_similarity, vecV, sumSq_vecV, h400, sqrt_four_hundred,
    List.zipWith_cons_cons, List.zipWith_nil_right, List.sum_cons, List.sum_nil]
  rw [if_neg (by norm_num)]
  norm_num

lemma similarity_V_A :
    calculate_similarity (PyVal.pylist vecV) (PyVal.pylist [(20 : ℝ), 0])
      PyVal.pynone = 39 / 40 := by
  have hv : vecV ≠ [] := by simp [vecV]
  simp only [calculate_similarity, chosenListingVector, parsedListingVector,
    pyTruthy, List.isEmpty_cons]
  simp [hv, cosine_V_A, rescaleClamp]
  norm_num

lemma weighted_scoresOnes :
    calculate_weighted_score (some scoresOnes) softAllMissing = 1 := by
  simp only [calculate_weighted_score, scoreWeightPairs, scoresOnes,
    softAllMissing, Option.getD_some, List.map_cons, List.sum_cons,
    List.map_nil, List.sum_nil, to_float]
  rw [if_neg (by norm_num)]
  norm_num

lemma weighted_noScores :
    calculate_weighted_score none softAllMissing = 0.5 := by
  simp only [calculate_weighted_score, scoreWeightPairs, emptyScores,
    softAllMissing, Option.getD_none, List.map_cons, List.sum_cons,
    List.map_nil, List.sum_nil, to_float]
  rw [if_neg (by norm_num)]
  norm_num

/-- The `MatchResult` the engine builds for listing A in the scenario. -/
noncomputable def matchA : MatchResult :=
  { listing_id := "A", listing_data := listingA,
    similarity_score := 39 / 40, weighted_score := 1,
    final_score := 197 / 200 }

lemma scoreListing_A :
    scoreListing listingA softAllMissing (PyVal.pylist vecV) = matchA := by
  simp only [scoreListing, listingA, matchA, MatchResult.mk.injEq,
    similarity_V_A, weighted_scoresOnes]
  norm_num

lemma search_C2 :
    search_by_filters dbC2 none none (some 1000) (some 2) none 40 =
      [listingA] := by
  have dA : decide ((900 : ℝ) ≤ 1000) = true := decide_eq_true (by norm_num)
  have dB : decide ((1500 : ℝ) ≤ 1000) = false := decide_eq_false (by norm_num)
  simp [search_by_filters, dbC2, listingA, listingB, dA, dB]

lemma search_C2n :
    search_by_filters dbC2n none none (some 1000) (some 2) none 40 =
      [listingA0] := by
  have dA : decide ((900 : ℝ) ≤ 1000) = true := decide_eq_true (by norm_num)
  have dB : decide ((1500 : ℝ) ≤ 1000) = false := decide_eq_false (by norm_num)
  simp [search_by_filters, dbC2n, listingA0, listingA, listingB, dA, dB]

/-- Evaluation helper: a run whose SQL pre-filter returns a single fresh,
admissible listing that scores at or above the threshold returns exactly
that listing's `MatchResult`. -/
lemma find_matches_single (settings : Settings) (db : List Listing)
    (sent : List (String × String)) (uid : String) (hard : HardFilters)
    (soft : SoftWeights) (pv : PyVal) (limit : ℕ) (l : Listing) (m : MatchResult)
    (hsearch : search_by_filters db (neighborhoodsArg hard)
      hard.min_price_usd hard.max_price_usd hard.min_rooms hard.max_rooms
      (limit * 2) = [l])
    (hws : was_sent sent uid l.id = false)
    (hop : l.operation_type = hard.operation_type)
    (hb : hard.requires_balcony = false)
    (hp : hard.requires_pets_allowed = false)
    (hf : hard.requires_furnished = false)
    (hpk : hard.requires_parking = false)
    (hscore : scoreListing l soft pv = m)
    (hth : settings.similarity_threshold ≤ m.final_score)
    (hlim : 1 ≤ limit) :
    find_matches_for_user settings db sent uid hard soft pv limit = [m] := by
  have htake : List.take limit [m] = [m] :=
    List.take_of_length_le (by simpa using hlim)
  simp only [find_matches_for_user]
  rw [hsearch]
  simp [hws, hop, hb, hp, hf, hpk, hscore, decide_eq_true hth, htake]

/-- Evaluation helper: same single-candidate situation but with a final
score strictly below the threshold — the result is empty. -/
lemma find_matches_single_below (settings : Settings) (db : List Listing)
    (sent : List (String × String)) (uid : String) (hard : HardFilters)
    (soft : SoftWeights) (pv : PyVal) (limit : ℕ) (l : Listing) (m : MatchResult)
    (hsearch : search_by_filters db (neighborhoodsArg hard)
      hard.min_price_usd hard.max_price_usd hard.min_rooms hard.max_rooms
      (limit * 2) = [l])
    (hws : was_sent sent uid l.id = false)
    (hop : l.operation_type = hard.operation_type)
    (hb : hard.requires_balcony = false)
    (hp : hard.requires_pets_allowed = false)
    (hf : hard.requires_furnished = false)
    (hpk : hard.requires_parking = false)
    (hscore : scoreListing l soft pv = m)
    (hth : m.final_score < settings.similarity_threshold) :
    find_matches_for_user settings db sent uid hard soft pv limit = [] := by
  simp only [find_matches_for_user]
  rw [hsearch]
  simp [hws, hop, hb, hp, hf, hpk, hscore, decide_eq_false (not_le.mpr hth)]

lemma find_C2 :
    find_matches_for_user defaultSettings dbC2 [] "u1" hardC2 softAllMissing
      (PyVal.pylist vecV) 20 = [matchA] := by
  refine find_matches_single _ _ _ _ _ _ _ _ listingA matchA ?_ ?_ ?_ rfl rfl rfl rfl
    scoreListing_A ?_ (by norm_num)
  · simpa [neighborhoodsArg, hardC2] using search_C2
  · simp [was_sent]
  · rfl
  · simp only [defaultSettings, matchA]
    norm_num

/-- The `MatchResult` built for listing A when its scores dict is absent:
the weighted score falls back to `0.5` and the blend is
`0.975 * 0.6 + 0.5 * 0.4 = 0.785`. -/
noncomputable def matchA0 : MatchResult :=
  { listing_id := "A", listing_data := listingA0,
    similarity_score := 39 / 40, weighted_score := 0.5,
    final_score := 157 / 200 }

lemma scoreListing_A0 :
    scoreListing listingA0 softAllMissing (PyVal.pylist vecV) = matchA0 := by
  simp only [scoreListing, listingA0, listingA, matchA0, MatchResult.mk.injEq,
    similarity_V_A, weighted_noScores]
  norm_num

lemma find_C2n :
    find_matches_for_user defaultSettings dbC2n [] "u1" hardC2 softAllMissing
      (PyVal.pylist vecV) 20 = [] := by
  refine find_matches_single_below _ _ _ _ _ _ _ _ listingA0 matchA0 ?_ ?_ ?_
    rfl rfl rfl rfl scoreListing_A0 ?_
  · simpa [neighborhoodsArg, hardC2] using search_C2n
  · simp [was_sent]
  · rfl
  · simp only [defaultSettings, matchA0]
    norm_num

/-- C2 (counterexample): in the exact scenario of the claim — where the
rescaled cosine of A's embedding with `V` is `0.975` — the engine returns
*no* `MatchResult` at all when A's qualitative scores are absent: the
final score is the blend `0.6·0.975 + 0.4·0.5 = 0.785`, not the rescaled
cosine `0.975`, and it falls below the `0.85` threshold. -/
theorem umbral_C2_counterexample :
    calculate_similarity (PyVal.pylist vecV) (PyVal.pylist [(20 : ℝ), 0])
        PyVal.pynone = 39 / 40 ∧
      find_matches_for_user defaultSettings dbC2n [] "u1" hardC2 softAllMissing
        (PyVal.pylist vecV) 20 = [] :=
  ⟨similarity_V_A, find_C2n⟩

/-- C2 (amended): in the scenario, B is excluded at the SQL hard-filter
stage (the pre-filter returns only A), and the engine yields exactly one
`MatchResult`, for A, whose final score is the blend
`0.6·(rescaled cosine) + 0.4·(weighted score)` — `0.985` when A's six
qualitative scores are all `1.0` — rather than the rescaled cosine
`0.975` itself; A survives the threshold gate because `0.985 ≥ 0.85`. -/
theorem umbral_C2_amended :
    cosine_similarity vecV [(20 : ℝ), 0] = 19 / 20 ∧
      search_by_filters dbC2 none none (some 1000) (some 2) none 40 =
        [listingA] ∧
      find_matches_for_user defaultSettings dbC2 [] "u1" hardC2 softAllMissing
        (PyVal.pylist vecV) 20 = [matchA] ∧
      matchA.similarity_score = 39 / 40 ∧
      matchA.final_score = 197 / 200 :=
  ⟨cosine_V_A, search_C2, find_C2, rfl, rfl⟩

/-! ## C5: deduplication against the sent-notification history -/

lemma find_matches_not_sent (settings : Settings) (db : List Listing)
    (sent : List (String × String)) (uid : String) (hard : HardFilters)
    (soft : SoftWeights) (pv : PyVal) (limit : ℕ) :
    ∀ m ∈ find_matches_for_user settings db sent uid hard soft pv limit,
      was_sent sent uid m.listing_id = false := by
  intro m hm
  simp only [find_matches_for_user] at hm
  split at hm
  · simp at hm
  · split at hm
    · simp at hm
    · have h1 := List.mem_of_mem_take hm
      have h2 := (List.mem_filter.mp h1).1
      have h3 := List.mem_mergeSort.mp h2
      obtain ⟨l, hl, rfl⟩ := List.mem_map.mp h3
      have h4 := (List.mem_filter.mp hl).2
      simp only [Bool.and_eq_true, Bool.not_eq_true'] at h4
      simpa [scoreListing] using h4.1.1.1.1.1

lemma find_matches_ids_nodup (settings : Settings) (db : List Listing)
    (sent : List (String × String)) (uid : String) (hard : HardFilters)
    (soft : SoftWeights) (pv : PyVal) (limit : ℕ)
    (hdb : (db.map Listing.id).Nodup) :
    ((find_matches_for_user settings db sent uid hard soft pv limit).map
      (fun m => m.listing_id)).Nodup := by
  simp only [find_matches_for_user]
  split
  · simp
  · split
    · simp
    · apply List.Nodup.sublist
        ((((List.take_sublist _ _).trans (List.filter_sublist _)).map _))
      rw [List.Perm.nodup_iff ((List.mergeSort_perm _ _).map _)]
      rw [List.map_map]
      have hcomp : ((fun m : MatchResult => m.listing_id) ∘
          fun l => scoreListing l soft pv) = Listing.id := funext fun l => rfl
      rw [hcomp]
      exact List.Nodup.sublist
        (((List.filter_sublist _).trans
          ((List.take_sublist _ _).trans (List.filter_sublist _))).map _) hdb

/-- The pairs a user's dispatch loop records: one `(user_id, listing_id)`
row per successfully sent match. -/
noncomputable def sentPairs (settings : Settings) (db : List Listing)
    (sendOk : String → String → Bool) (sent : List (String × String))
    (u : UserRow) : List (String × String) :=
  ((find_matches_for_user settings db sent u.id u.hard u.soft
      (prepPreferenceVector u.preference_vector) 5).filter
    (fun m => sendOk u.id m.listing_id)).map fun m => (u.id, m.listing_id)

lemma foldl_dispatch (uid : String) (sendOk : String → String → Bool) :
    ∀ (ms : List MatchResult) (sent : List (String × String)) (n : ℕ),
      ms.foldl
        (fun acc m =>
          if sendOk uid m.listing_id then (acc.1 ++ [(uid, m.listing_id)], acc.2 + 1)
          else acc)
        (sent, n) =
      (sent ++ ((ms.filter fun m => sendOk uid m.listing_id).map
          fun m => (uid, m.listing_id)),
        n + ((ms.filter fun m => sendOk uid m.listing_id).length)) := by
  intro ms
  induction ms with
  | nil => intro sent n; simp
  | cons m t ih =>
    intro sent n
    by_cases h : sendOk uid m.listing_id
    · rw [List.foldl_cons, if_pos h, ih]
      simp only [List.filter_cons, h, if_true, List.map_cons, List.length_cons,
        Prod.mk.injEq]
      constructor
      · simp
      · omega
    · rw [List.foldl_cons, if_neg h, ih]
      simp [List.filter_cons, h]

lemma processUser_eq (settings : Settings) (db : List Listing)
    (sendOk : String → String → Bool) (st : List (String × String) × ℕ)
    (u : UserRow) :
    processUser settings db sendOk st u =
      (st.1 ++ sentPairs settings db sendOk st.1 u,
        st.2 + (sentPairs settings db sendOk st.1 u).length) := by
  obtain ⟨sent, n⟩ := st
  simp only [processUser, sentPairs, List.length_map]
  exact foldl_dispatch u.id sendOk _ sent n

lemma sentPairs_nodup (settings : Settings) (db : List Listing)
    (sendOk : String → String → Bool) (sent : List (String × String))
    (u : UserRow) (hdb : (db.map Listing.id).Nodup) :
    (sentPairs settings db sendOk sent u).Nodup := by
  have hids : (((find_matches_for_user settings db sent u.id u.hard u.soft
      (prepPreferenceVector u.preference_vector) 5).filter
        (fun m => sendOk u.id m.listing_id)).map (fun m => m.listing_id)).Nodup :=
    List.Nodup.sublist ((List.filter_sublist _).map _)
      (find_matches_ids_nodup settings db sent u.id u.hard u.soft
        (prepPreferenceVector u.preference_vector) 5 hdb)
  have hmk : (sentPairs settings db sendOk sent u) =
      (((find_matches_for_user settings db sent u.id u.hard u.soft
        (prepPreferenceVector u.preference_vector) 5).filter
          (fun m => sendOk u.id m.listing_id)).map (fun m => m.listing_id)).map
        (fun lid => (u.id, lid)) := by
    simp [sentPairs, List.map_map]
  rw [hmk]
  exact List.Nodup.map (fun a b h => by simpa using congrArg Prod.snd h) hids

lemma sentPairs_not_mem_sent (settings : Settings) (db : List Listing)
    (sendOk : String → String → Bool) (sent : List (String × String))
    (u : UserRow) :
    ∀ p ∈ sentPairs settings db sendOk sent u, p ∉ sent := by
  intro p hp
  simp only [sentPairs, List.mem_map, List.mem_filter] at hp
  obtain ⟨m, ⟨hm, _⟩, rfl⟩ := hp
  have hw := find_matches_not_sent settings db sent u.id u.hard u.soft
    (prepPreferenceVector u.preference_vector) 5 m hm
  simpa [was_sent] using hw

lemma runCycle_decomp (settings : Settings) (db : List Listing)
    (sendOk : String → String → Bool) (hdb : (db.map Listing.id).Nodup) :
    ∀ (users : List UserRow) (sent : List (String × String)) (n : ℕ),
      ∃ NEW : List (String × String),
        users.foldl (processUser settings db sendOk) (sent, n) =
          (sent ++ NEW, n + NEW.length) ∧
        NEW.Nodup ∧ ∀ p ∈ NEW, p ∉ sent := by
  intro users
  induction users with
  | nil => intro sent n; exact ⟨[], by simp, List.nodup_nil, by simp⟩
  | cons u us ih =>
    intro sent n
    obtain ⟨NEW, hEq, hNodup, hFresh⟩ :=
      ih (sent ++ sentPairs settings db sendOk sent u)
        (n + (sentPairs settings db sendOk sent u).length)
    refine ⟨sentPairs settings db sendOk sent u ++ NEW, ?_, ?_, ?_⟩
    · rw [List.foldl_cons, processUser_eq, hEq, List.append_assoc]
      simp [Nat.add_assoc]
    · refine (sentPairs_nodup settings db sendOk sent u hdb).append hNodup ?_
      intro p hp hp2
      exact hFresh p hp2 (List.mem_append.mpr (Or.inr hp))
    · intro p hp
      rcases List.mem_append.mp hp with hp | hp
      · exact sentPairs_not_mem_sent settings db sendOk sent u p hp
      · intro hmem
        exact hFresh p hp (List.mem_append.mpr (Or.inl hmem))

/-- C5 (amended): a `(user, listing)` pair with a sent-notification row is
excluded from a user's candidates before scoring, and the engine never
records the same `(user, listing)` pair twice — neither within one cycle
nor across a second cycle over the unchanged data set.  The second cycle
is *not* guaranteed to send zero notifications: it can notify
above-threshold matches the first cycle's per-user cap truncated. -/
theorem umbral_C5_amended (settings : Settings) (db : List Listing)
    (sendOk : String → String → Bool) (users : List UserRow)
    (sent₀ : List (String × String))
    (hdb : (db.map Listing.id).Nodup) (hsent : sent₀.Nodup) :
    (∀ (uid : String) (hard : HardFilters) (soft : SoftWeights) (pv : PyVal)
        (limit : ℕ) (m : MatchResult),
        m ∈ find_matches_for_user settings db sent₀ uid hard soft pv limit →
        was_sent sent₀ uid m.listing_id = false) ∧
    (runCycle settings db sendOk users sent₀).1.Nodup ∧
    (runCycle settings db sendOk users
        (runCycle settings db sendOk users sent₀).1).1.Nodup := by
  have step : ∀ s : List (String × String), s.Nodup →
      (runCycle settings db sendOk users s).1.Nodup := by
    intro s hs
    obtain ⟨NEW, hEq, hNodup, hFresh⟩ :=
      runCycle_decomp settings db sendOk hdb users s 0
    simp only [runCycle, hEq]
    exact hs.append hNodup fun p hp hp2 => hFresh p hp2 hp
  exact ⟨fun uid hard soft pv limit m hm =>
      find_matches_not_sent settings db sent₀ uid hard soft pv limit m hm,
    step sent₀ hsent, step _ (step sent₀ hsent)⟩

/-- A user row with no stored preference vector. -/
def userU : UserRow :=
  { id := "u1", hard := hardOpen, soft := softAllMissing,
    preference_vector := PyVal.pynone }

/-- Witness for the amended C5 on a one-listing, one-user data set run
twice. -/
theorem umbral_C5_witness :
    (runCycle defaultSettings [listingA] (fun _ _ => true) [userU]
        (runCycle defaultSettings [listingA] (fun _ _ => true) [userU] []).1).1.Nodup :=
  (umbral_C5_amended defaultSettings [listingA] (fun _ _ => true) [userU] []
    (by simp [listingA]) List.nodup_nil).2.2

/-! ### C5 counterexample: the cap makes the second run non-empty -/

/-- One of six identical candidate listings (ids `"1"`..`"6"`): all pass
the open hard filters, and all score a final `1.0` for a user with
preference vector `[1, 0]`. -/
def listing6 (i : String) : Listing :=
  { id := i, price_usd := 500, rooms := 2, neighborhood := "Centro",
    operation_type := "alquiler", has_balcony := false,
    is_pet_friendly := false, is_furnished := false, parking_spaces := none,
    scores := some scoresOnes,
    embedding_vector := PyVal.pylist [1, 0], vibe_embedding := PyVal.pynone }

/-- Six above-threshold candidates — one more than the per-run cap of 5. -/
def db6 : List Listing :=
  [listing6 "1", listing6 "2", listing6 "3", listing6 "4", listing6 "5",
   listing6 "6"]

/-- The scenario user with preference vector `[1, 0]`. -/
def user6 : UserRow :=
  { id := "u", hard := hardOpen, soft := softAllMissing,
    preference_vector := PyVal.pylist [1, 0] }

/-- The sent-notification table after the first run: the five rows the cap
let through. -/
def sent1 : List (String × String) :=
  [("u", "1"), ("u", "2"), ("u", "3"), ("u", "4"), ("u", "5")]

lemma cosine_unit : cosine_similarity [(1 : ℝ), 0] [(1 : ℝ), 0] = 1 := by
  have h1 : sumSq [(1 : ℝ), 0] = 1 := by norm_num [sumSq]
  simp only [cosine_similarity, h1, Real.sqrt_one, List.zipWith_cons_cons,
    List.zipWith_nil_right, List.sum_cons, List.sum_nil]
  rw [if_neg (by norm_num)]
  norm_num

lemma similarity_unit :
    calculate_similarity (PyVal.pylist [(1 : ℝ), 0])
      (PyVal.pylist [(1 : ℝ), 0]) PyVal.pynone = 1 := by
  simp only [calculate_similarity, chosenListingVector, parsedListingVector,
    pyTruthy, List.isEmpty_cons]
  simp [cosine_unit, rescaleClamp]

/-- The `MatchResult` the engine builds for each of the six candidates. -/
noncomputable def m6 (i : String) : MatchResult :=
  { listing_id := i, listing_data := listing6 i,
    similarity_score := 1, weighted_score := 1, final_score := 1 }

lemma scoreListing_6 (i : String) :
    scoreListing (listing6 i) softAllMissing (PyVal.pylist [(1 : ℝ), 0]) =
      m6 i := by
  simp only [scoreListing, listing6, m6, MatchResult.mk.injEq,
    similarity_unit, weighted_scoresOnes]
  norm_num

lemma pairwise_m6 :
    List.Pairwise (fun a b => byFinalScoreDesc a b = true)
      [m6 "1", m6 "2", m6 "3", m6 "4", m6 "5", m6 "6"] := by
  have hle : ∀ i j : String, byFinalScoreDesc (m6 i) (m6 j) = true := by
    intro i j
    simp [byFinalScoreDesc, m6]
  simp [List.pairwise_cons, hle]

lemma find_run1 :
    find_matches_for_user defaultSettings db6 [] "u" hardOpen softAllMissing
      (PyVal.pylist [(1 : ℝ), 0]) 5 =
      [m6 "1", m6 "2", m6 "3", m6 "4", m6 "5"] := by
  have hsearch : search_by_filters db6 (neighborhoodsArg hardOpen)
      hardOpen.min_price_usd hardOpen.max_price_usd hardOpen.min_rooms
      hardOpen.max_rooms (5 * 2) = db6 := by
    simp [neighborhoodsArg, hardOpen, search_by_filters, db6]
  have hpred : ∀ i : String,
      (!(was_sent [] "u" (listing6 i).id) &&
        decide ((listing6 i).operation_type = hardOpen.operation_type) &&
        (!hardOpen.requires_balcony || (listing6 i).has_balcony) &&
        (!hardOpen.requires_pets_allowed || (listing6 i).is_pet_friendly) &&
        (!hardOpen.requires_furnished || (listing6 i).is_furnished) &&
        (!hardOpen.requires_parking || parkingTruthy (listing6 i).parking_spaces)) =
        true := by
    intro i
    simp [was_sent, listing6, hardOpen]
  have hth : ∀ i : String,
      decide (defaultSettings.similarity_threshold ≤ (m6 i).final_score) = true :=
    fun i => decide_eq_true (by norm_num [defaultSettings, m6])
  have hms : List.mergeSort [m6 "1", m6 "2", m6 "3", m6 "4", m6 "5", m6 "6"]
      byFinalScoreDesc = [m6 "1", m6 "2", m6 "3", m6 "4", m6 "5", m6 "6"] :=
    List.mergeSort_of_sorted pairwise_m6
  simp only [find_matches_for_user]
  rw [hsearch]
  simp only [db6, List.isEmpty_cons, Bool.false_eq_true, if_false,
    List.filter_cons, hpred, if_true, List.filter_nil, List.map_cons,
    List.map_nil, scoreListing_6, hms, hth, List.take_cons, List.take_nil]
  simp

lemma find_run2 :
    find_matches_for_user defaultSettings db6 sent1 "u" hardOpen softAllMissing
      (PyVal.pylist [(1 : ℝ), 0]) 5 = [m6 "6"] := by
  have hsearch : search_by_filters db6 (neighborhoodsArg hardOpen)
      hardOpen.min_price_usd hardOpen.max_price_usd hardOpen.min_rooms
      hardOpen.max_rooms (5 * 2) = db6 := by
    simp [neighborhoodsArg, hardOpen, search_by_filters, db6]
  have hsent : ∀ i : String, i ∈ (["1", "2", "3", "4", "5"] : List String) →
      was_sent sent1 "u" (listing6 i).id = true := by
    intro i hi
    fin_cases hi <;> simp [was_sent, sent1, listing6]
  have hfresh : was_sent sent1 "u" (listing6 "6").id = false := by
    simp [was_sent, sent1, listing6]
  have hpred6 :
      (!(was_sent sent1 "u" (listing6 "6").id) &&
        decide ((listing6 "6").operation_type = hardOpen.operation_type) &&
        (!hardOpen.requires_balcony || (listing6 "6").has_balcony) &&
        (!hardOpen.requires_pets_allowed || (listing6 "6").is_pet_friendly) &&
        (!hardOpen.requires_furnished || (listing6 "6").is_furnished) &&
        (!hardOpen.requires_parking || parkingTruthy (listing6 "6").parking_spaces)) =
        true := by
    simp [was_sent, sent1, listing6, hardOpen]
  have hth : decide (defaultSettings.similarity_threshold ≤ (m6 "6").final_score) =
      true := decide_eq_true (by norm_num [defaultSettings, m6])
  simp only [find_matches_for_user]
  rw [hsearch]
  simp only [db6, List.isEmpty_cons, Bool.false_eq_true, if_false,
    List.filter_cons, hpred6, if_true, List.filter_nil,
    hsent "1" (by simp), hsent "2" (by simp), hsent "3" (by simp),
    hsent "4" (by simp), hsent "5" (by simp), Bool.not_true, Bool.false_and,
    List.map_cons, List.map_nil, scoreListing_6, List.mergeSort_singleton,
    hth, List.take_cons, List.take_nil]
  simp [was_sent, sent1]

lemma run1_eq :
    runCycle defaultSettings db6 (fun _ _ => true) [user6] [] = (sent1, 5) := by
  simp only [runCycle, List.foldl_cons, List.foldl_nil, processUser_eq]
  simp only [sentPairs, user6, prepPreferenceVector, find_run1]
  simp [m6, sent1]

lemma run2_eq :
    runCycle defaultSettings db6 (fun _ _ => true) [user6] sent1 =
      (sent1 ++ [("u", "6")], 1) := by
  simp only [runCycle, List.foldl_cons, List.foldl_nil, processUser_eq]
  simp only [sentPairs, user6, prepPreferenceVector, find_run2]
  simp [m6]

/-- C5 (counterexample): with six above-threshold candidates and the
orchestrator's per-run cap of 5, the first run over an empty history sends
5 notifications, and the *second* run over the unchanged data set sends 1
more (the capped-out listing) — not 0 as claimed. -/
theorem umbral_C5_counterexample :
    runCycle defaultSettings db6 (fun _ _ => true) [user6] [] = (sent1, 5) ∧
      (runCycle defaultSettings db6 (fun _ _ => true) [user6]
          (runCycle defaultSettings db6 (fun _ _ => true) [user6] []).1).2 = 1 ∧
      (0 : ℕ) < 1 := by
  refine ⟨run1_eq, ?_, by norm_num⟩
  rw [run1_eq]
  rw [run2_eq]

end Umbral
